import Mathlib

/-!
Verification of the data-analysis dashboard (app.py) against its
specification.  The program is embedded shallowly: pandas DataFrames become
the row-major `Table` structure below, pandas aggregates (`mean`, `median`,
`mode`, `dropna`, `fillna`, `drop_duplicates`) become executable Lean
functions with the documented pandas semantics, and the Streamlit widget
handlers (the Apply-Cleaning button, the duplicate-removal button, the
visualization selectors, `load_data`) become pure functions over `Table`.
Floating-point numbers are idealized as exact rationals.
-/

deriving instance DecidableEq for Except

namespace DataTool

/-- A scalar cell value: numeric (pandas int64/float64, idealized as an exact
rational) or categorical text (pandas object dtype). -/
inductive Value
  | num (q : ℚ)
  | str (s : String)
deriving DecidableEq, Repr

/-- Dtype classification used by app.py line 71: a column whose dtype is in
[int64, float64] is numeric; everything else (object/category) is
categorical. -/
inductive ColType
  | numeric
  | categorical
deriving DecidableEq, Repr

/-- A cell of the table; `none` models a null/NaN entry. -/
abbrev Cell := Option Value

/-- A header entry: column name and dtype. -/
abbrev Header := String × ColType

/-- The in-memory table (a pandas DataFrame): an ordered header of named,
typed columns and a list of rows. -/
structure Table where
  header : List Header
  rows : List (List Cell)
deriving DecidableEq, Repr

/-- Well-formedness: every row has exactly one cell per header entry
(the invariant that all columns share one length). -/
def WF (t : Table) : Prop := ∀ r ∈ t.rows, r.length = t.header.length

instance (t : Table) : Decidable (WF t) := by
  unfold WF; infer_instance

/-- Index of the first header entry with the given column name, as pandas
column lookup does. -/
def findColAux (c : String) : List Header → Option Nat
  | [] => none
  | h :: hs => if h.1 = c then some 0 else (findColAux c hs).map (· + 1)

/-- Position of column `c` in table `t`; `none` when the column is absent
(pandas would raise KeyError). -/
def colIdx (t : Table) (c : String) : Option Nat := findColAux c t.header

/-- Dtype of the column at position `j`. -/
def dtypeAt (t : Table) (j : Nat) : ColType :=
  (t.header.getD j ("", ColType.categorical)).2

/-- The cells of the column at position `j`, top to bottom. -/
def colCells (t : Table) (j : Nat) : List Cell :=
  t.rows.map (fun r => r.getD j none)

/-- The non-null values of a list of cells, in row order
(pandas skipna/dropna view of a column). -/
def nonNull (cs : List Cell) : List Value := cs.filterMap id

/-- The numeric values among the non-null cells, in row order. -/
def numVals (cs : List Cell) : List ℚ :=
  cs.filterMap (fun c => match c with
    | some (Value.num q) => some q
    | _ => none)

/-- Number of occurrences of `v` in `vs`. -/
def countV (vs : List Value) (v : Value) : Nat :=
  (vs.filter (fun w => decide (w = v))).length

/-- Maximum of a list of naturals (0 when empty). -/
def maxNat (l : List Nat) : Nat := l.foldl max 0

/-- Least element of a nonempty list under the boolean order `le`
(`none` on the empty list). -/
def minWith (le : α → α → Bool) : List α → Option α
  | [] => none
  | a :: l => some (l.foldl (fun acc v => if le v acc then v else acc) a)

/-- Lexicographic comparison of character lists by Unicode code point, the
order Python uses on strings. -/
def strLeAux : List Char → List Char → Bool
  | [], _ => true
  | _ :: _, [] => false
  | a :: as, b :: bs =>
    if a.toNat < b.toNat then true
    else if b.toNat < a.toNat then false
    else strLeAux as bs

/-- Lexicographic comparison of strings by Unicode code point. -/
def strLe (a b : String) : Bool := strLeAux a.data b.data

/-- Comparison pandas uses when it sorts the modes of a homogeneous column:
rationals by the numeric order, strings lexicographically.  A pandas column
has a single dtype, so the cross-constructor cases never arise at runtime;
they are fixed arbitrarily so the function is total. -/
def valueLe : Value → Value → Bool
  | Value.num a, Value.num b => decide (a ≤ b)
  | Value.str a, Value.str b => strLe a b
  | Value.num _, Value.str _ => true
  | Value.str _, Value.num _ => false

/-- Insertion step for `sortBy`. -/
def insertSorted (le : α → α → Bool) (a : α) : List α → List α
  | [] => [a]
  | b :: l => if le a b then a :: b :: l else b :: insertSorted le a l

/-- Insertion sort by a boolean comparison (used for median/quantiles). -/
def sortBy (le : α → α → Bool) : List α → List α
  | [] => []
  | a :: l => insertSorted le a (sortBy le l)

/-- pandas `Series.mean()`: arithmetic mean of the non-null values, NaN
(here `none`) when there are none. -/
def meanOpt (qs : List ℚ) : Option ℚ :=
  match qs with
  | [] => none
  | _ => some (qs.sum / (qs.length : ℚ))

/-- pandas `Series.median()`: middle of the sorted non-null values, or the
average of the two middle ones; NaN (here `none`) when there are none. -/
def medianOpt (qs : List ℚ) : Option ℚ :=
  match qs with
  | [] => none
  | _ =>
    let s := sortBy (fun a b => decide (a ≤ b)) qs
    let n := s.length
    if n % 2 = 1 then some (s.getD (n / 2) 0)
    else some ((s.getD (n / 2 - 1) 0 + s.getD (n / 2) 0) / 2)

/-- pandas `Series.quantile(p)` with linear interpolation over the sorted
non-null values (also yields min at p = 0 and max at p = 1). -/
def quantileOpt (p : ℚ) (qs : List ℚ) : Option ℚ :=
  match qs with
  | [] => none
  | _ =>
    let s := sortBy (fun a b => decide (a ≤ b)) qs
    let h : ℚ := p * ((s.length : ℚ) - 1)
    let f : Nat := h.floor.toNat
    let lo := s.getD f 0
    let hi := s.getD (f + 1) lo
    some (lo + (h - (f : ℚ)) * (hi - lo))

/-- Sample variance with ddof = 1, the square of the std shown by
`describe()`; the std itself is the (possibly irrational) square root of
this value and is determined by it, so the overview records the variance to
stay within exact arithmetic. `none` when fewer than two values. -/
def varianceOpt (qs : List ℚ) : Option ℚ :=
  match meanOpt qs with
  | none => none
  | some mu =>
    if qs.length ≤ 1 then none
    else some (((qs.map (fun x => (x - mu) ^ 2)).sum) / ((qs.length : ℚ) - 1))

/-- pandas `Series.mode()[0]` applied to the non-null values of a column:
the most frequent value.  pandas returns the modes in ascending sorted
order, so element 0 is the LEAST of the tied modes.  `none` when the list is
empty, where pandas `mode()[0]` raises IndexError. -/
def modeFirst (vs : List Value) : Option Value :=
  match vs with
  | [] => none
  | _ =>
    let maxC := maxNat (vs.map (countV vs))
    minWith valueLe (vs.filter (fun v => decide (countV vs v = maxC)))

/-- Modelled from the spec (§4.3 tie-break sentence of the claim under
test): the most frequent value with ties broken by the FIRST-ENCOUNTERED
value in the original row order.  Used only to compare the claimed
behaviour against the pandas behaviour `modeFirst`. -/
def firstEncounteredMode (vs : List Value) : Option Value :=
  match vs with
  | [] => none
  | _ =>
    let maxC := maxNat (vs.map (countV vs))
    vs.find? (fun v => decide (countV vs v = maxC))

/-- `fillna` on one cell: a null cell becomes `v`, a non-null cell is kept.
When `v` is itself `none` (filling with NaN, as pandas mean of an all-null
column produces) the cell is unchanged. -/
def fillCell (v : Cell) : Cell → Cell
  | none => v
  | some x => some x

/-- `df[col].fillna(value, inplace=True)` (app.py lines 78 and 81):
replace the null cells of column `j` by `v`. -/
def fillCol (t : Table) (j : Nat) (v : Cell) : Table :=
  { t with rows := t.rows.map (fun r => r.set j (fillCell v (r.getD j none))) }

/-- The four options of the Choose-method radio widget (app.py line 65). -/
inductive FillMethod
  | mean
  | median
  | mode
  | dropRows
deriving DecidableEq, Repr

/-- The ways the Apply-Cleaning handler can fail: the named column is absent
(pandas KeyError) or `mode()[0]` is taken on a column with no non-null
values (pandas IndexError on the empty mode series).  Either exception
aborts the handler before any mutation; Streamlit surfaces it as a visible
message and the session survives. -/
inductive CleanError
  | keyError
  | indexError
deriving DecidableEq, Repr

/-- The Apply-Cleaning button handler (app.py lines 67-82): Drop Rows does
`df.dropna(subset=[col])`; otherwise an int64/float64 column is filled with
its mean, median or `mode()[0]` according to the chosen method, and any
other column is filled with `mode()[0]` regardless of the chosen method. -/
def applyCleaning (t : Table) (c : String) (m : FillMethod) : Except CleanError Table :=
  match colIdx t c with
  | none => Except.error CleanError.keyError
  | some j =>
    match m with
    | FillMethod.dropRows =>
        Except.ok { t with rows := t.rows.filter (fun r => (r.getD j none).isSome) }
    | _ =>
      if dtypeAt t j = ColType.numeric then
        match m with
        | FillMethod.mean =>
            Except.ok (fillCol t j ((meanOpt (numVals (colCells t j))).map Value.num))
        | FillMethod.median =>
            Except.ok (fillCol t j ((medianOpt (numVals (colCells t j))).map Value.num))
        | _ =>
            match modeFirst (nonNull (colCells t j)) with
            | none => Except.error CleanError.indexError
            | some v => Except.ok (fillCol t j (some v))
      else
        match modeFirst (nonNull (colCells t j)) with
        | none => Except.error CleanError.indexError
        | some v => Except.ok (fillCol t j (some v))

/-- Recursion of `drop_duplicates`: keep a row unless an equal row was
already kept (the set of already-kept rows is the accumulator). -/
def dedupAux {α : Type} [DecidableEq α] (seen : List α) : List α → List α
  | [] => []
  | r :: rs => if r ∈ seen then dedupAux seen rs else r :: dedupAux (r :: seen) rs

/-- `df.drop_duplicates(inplace=True)` (app.py line 91): remove duplicate
rows, keeping the first occurrence (pandas keep=first, all columns). -/
def dropDuplicatesT (t : Table) : Table :=
  { t with rows := dedupAux [] t.rows }

/-- Recursion of the specified behaviour: carry the list of ALL earlier rows
and drop a row exactly when it equals one of them. -/
def keepFirstAux {α : Type} [DecidableEq α] (pre : List α) : List α → List α
  | [] => []
  | r :: rs =>
    if r ∈ pre then keepFirstAux (pre ++ [r]) rs
    else r :: keepFirstAux (pre ++ [r]) rs

/-- The specified DropDuplicates behaviour, stated as in the claim: remove
exactly the rows equal to some earlier row, keeping first occurrences. -/
def keepFirstOccurrences {α : Type} [DecidableEq α] (l : List α) : List α :=
  keepFirstAux [] l

/-- Outcome of `load_data`: a parsed table, or a failure.  `fail (some msg)`
is a failure announced by `st.error msg`; `fail none` is the silent fall
through of an unhandled suffix (the function body ends with no explicit
return and no message). -/
inductive LoadResult
  | ok (t : Table)
  | fail (msg : Option String)
deriving DecidableEq, Repr

/-- Prefix test on character lists. -/
def listPre : List Char → List Char → Bool
  | [], _ => true
  | _ :: _, [] => false
  | a :: as, b :: bs => a == b && listPre as bs

/-- Python `str.endswith`: exact suffix match, computed on the character
lists. -/
def strEndsWith (s post : String) : Bool := listPre post.data.reverse s.data.reverse

/-- `load_data` (app.py lines 10-20).  The CSV and spreadsheet parsers are
library calls, so their outcomes are supplied as oracles: `Except.ok` is a
successful parse and `Except.error e` a parser exception with text `e`.
The function dispatches on the filename suffix: `.csv` first, then
`.xls`/`.xlsx`; a parser exception is caught and reported via `st.error`;
any other suffix falls through and silently returns None. -/
def load_data (name : String) (csvParse xlsParse : Except String Table) : LoadResult :=
  if strEndsWith name ".csv" then
    match csvParse with
    | Except.ok t => LoadResult.ok t
    | Except.error e => LoadResult.fail (some ("Error reading file: " ++ e))
  else if strEndsWith name ".xls" || strEndsWith name ".xlsx" then
    match xlsParse with
    | Except.ok t => LoadResult.ok t
    | Except.error e => LoadResult.fail (some ("Error reading file: " ++ e))
  else
    LoadResult.fail none

/-- True when the load produced a parsed table. -/
def LoadResult.isParsed : LoadResult → Bool
  | LoadResult.ok _ => true
  | LoadResult.fail _ => false

/-- True when the load failed AND a reason message was emitted. -/
def LoadResult.hasReason : LoadResult → Bool
  | LoadResult.fail (some _) => true
  | _ => false

/-- The four entries of the Select-Plot-Type widget (app.py line 99). -/
inductive PlotKind
  | histogram
  | barChart
  | scatterPlot
  | boxPlot
deriving DecidableEq, Repr

/-- A rendered chart, recorded as its kind and the columns it plots. -/
inductive ChartSpec
  | histogram (c : String)
  | barChart (c : String)
  | scatter (x y : String)
  | box (c : String)
deriving DecidableEq, Repr

/-- Failure of the visualization section: the selectbox of candidate
columns is empty, so no chart is produced. -/
inductive VisError
  | noEligibleColumns
deriving DecidableEq, Repr

/-- `df.select_dtypes(include=[int64, float64]).columns` (app.py
lines 106, 121, 129), in header order. -/
def numericCols (t : Table) : List String :=
  (t.header.filter (fun h => decide (h.2 = ColType.numeric))).map Prod.fst

/-- `df.select_dtypes(include=[object, category]).columns` (app.py
line 113), in header order. -/
def categoricalCols (t : Table) : List String :=
  (t.header.filter (fun h => decide (h.2 = ColType.categorical))).map Prod.fst

/-- The visualization section (app.py lines 105-133) with the default
selectbox choices: each plot kind draws its candidate columns from the
dtype it needs and plots the first candidate (for scatter, the first two;
with a single numeric column both axes default to it).  An empty candidate
list leaves the selectbox at None and nothing is rendered. -/
def render (t : Table) (k : PlotKind) : Except VisError ChartSpec :=
  match k with
  | PlotKind.histogram =>
    match numericCols t with
    | [] => Except.error VisError.noEligibleColumns
    | c :: _ => Except.ok (ChartSpec.histogram c)
  | PlotKind.barChart =>
    match categoricalCols t with
    | [] => Except.error VisError.noEligibleColumns
    | c :: _ => Except.ok (ChartSpec.barChart c)
  | PlotKind.scatterPlot =>
    match numericCols t with
    | [] => Except.error VisError.noEligibleColumns
    | [c] => Except.ok (ChartSpec.scatter c c)
    | c1 :: c2 :: _ => Except.ok (ChartSpec.scatter c1 c2)
  | PlotKind.boxPlot =>
    match numericCols t with
    | [] => Except.error VisError.noEligibleColumns
    | c :: _ => Except.ok (ChartSpec.box c)

/-- Per-column facts shown by `df.info()`: name, dtype, non-null count. -/
structure ColInfo where
  name : String
  dtype : ColType
  nonNullCount : Nat
deriving DecidableEq, Repr

/-- One line of `df.describe()` for a numeric column (count, mean, min,
quartiles, max; the std column is recorded through the variance, of which
it is the square root). -/
structure NumStats where
  name : String
  count : Nat
  mean : Option ℚ
  low : Option ℚ
  q25 : Option ℚ
  q50 : Option ℚ
  q75 : Option ℚ
  high : Option ℚ
  variance : Option ℚ
deriving DecidableEq, Repr

/-- The Overview produced by the Data-Overview and Descriptive-Statistics
sections (app.py lines 39-50): shape, `df.head()` preview, `df.info()`
lines, `df.describe()` restricted to numeric columns. -/
structure Overview where
  shape : Nat × Nat
  headPreview : List (List Cell)
  info : List ColInfo
  describe : List NumStats
deriving DecidableEq, Repr

/-- The Summarizer (app.py lines 39-50), recomputed from the current table
on every rerun. -/
def summarize (t : Table) : Overview :=
  { shape := (t.rows.length, t.header.length)
  , headPreview := t.rows.take 5
  , info := t.header.enum.map (fun p =>
      { name := p.2.1
      , dtype := p.2.2
      , nonNullCount := (nonNull (colCells t p.1)).length })
  , describe := (t.header.enum.filter (fun p => decide (p.2.2 = ColType.numeric))).map
      (fun p =>
        let qs := numVals (colCells t p.1)
        { name := p.2.1
        , count := qs.length
        , mean := meanOpt qs
        , low := quantileOpt 0 qs
        , q25 := quantileOpt (1 / 4) qs
        , q50 := quantileOpt (1 / 2) qs
        , q75 := quantileOpt (3 / 4) qs
        , high := quantileOpt 1 qs
        , variance := varianceOpt qs }) }

/-! Concrete tables used to instantiate the theorems below. -/

/-- The age example of the spec: one numeric column [20, 30, null, 40]. -/
def exAgeT : Table :=
  { header := [("age", ColType.numeric)]
  , rows := [[some (Value.num 20)], [some (Value.num 30)], [none], [some (Value.num 40)]] }

/-- The age example after Mean imputation: [20, 30, 30, 40]. -/
def exAgeFilled : Table :=
  { header := [("age", ColType.numeric)]
  , rows := [[some (Value.num 20)], [some (Value.num 30)], [some (Value.num 30)],
             [some (Value.num 40)]] }

/-- A numeric column [2, 1, 2, 1, null]: the values 1 and 2 tie at two
occurrences each; 2 is encountered first, 1 is the least. -/
def exTieT : Table :=
  { header := [("c", ColType.numeric)]
  , rows := [[some (Value.num 2)], [some (Value.num 1)], [some (Value.num 2)],
             [some (Value.num 1)], [none]] }

/-- A categorical column [a, null]. -/
def exCatT : Table :=
  { header := [("c", ColType.categorical)]
  , rows := [[some (Value.str "a")], [none]] }

/-- The mode tie-break column of the spec, [x, y, x, y], with a null to
fill. -/
def exXYT : Table :=
  { header := [("c", ColType.categorical)]
  , rows := [[some (Value.str "x")], [some (Value.str "y")], [some (Value.str "x")],
             [some (Value.str "y")], [none]] }

/-- A categorical column [p, p, null, q]. -/
def exCityT : Table :=
  { header := [("city", ColType.categorical)]
  , rows := [[some (Value.str "p")], [some (Value.str "p")], [none], [some (Value.str "q")]] }

/-- A numeric column consisting of a single null. -/
def exAllNullT : Table :=
  { header := [("c", ColType.numeric)]
  , rows := [[none]] }

/-- The duplicate-rows example of the spec: rows (1, a), (1, a), (2, b). -/
def exDupT : Table :=
  { header := [("n", ColType.numeric), ("s", ColType.categorical)]
  , rows := [[some (Value.num 1), some (Value.str "a")],
             [some (Value.num 1), some (Value.str "a")],
             [some (Value.num 2), some (Value.str "b")]] }

/-- The duplicate-rows example after deduplication. -/
def exDedupT : Table :=
  { header := [("n", ColType.numeric), ("s", ColType.categorical)]
  , rows := [[some (Value.num 1), some (Value.str "a")],
             [some (Value.num 2), some (Value.str "b")]] }

/-- An empty table, used as a parse-oracle payload. -/
def emptyT : Table := { header := [], rows := [] }

/-- True for cells a pandas int64/float64 column can hold: a number or a
null, never text. -/
def isNumCell : Cell → Bool
  | some (Value.str _) => false
  | _ => true

/-- The property the spec assigns to a fill action on column `j` with fill
value `fv`: header unchanged, row count unchanged, non-null cells of the
column unchanged, every null cell of the column now holds `fv`, and the
column has zero nulls afterwards. -/
def filledColSpec (t t2 : Table) (j : Nat) (fv : Value) : Prop :=
  t2.header = t.header ∧
  t2.rows.length = t.rows.length ∧
  (∀ i v, (colCells t j).getD i none = some v → (colCells t2 j).getD i none = some v) ∧
  (∀ i, i < t.rows.length → (colCells t j).getD i none = none →
    (colCells t2 j).getD i none = some fv) ∧
  ((colCells t2 j).filter (fun cl => decide (cl = none))).length = 0

/-! General lemmas about the helper functions. -/

theorem findColAux_lt_length {c : String} :
    ∀ {hs : List Header} {j : Nat}, findColAux c hs = some j → j < hs.length := by
  intro hs
  induction hs with
  | nil => intro j h; simp [findColAux] at h
  | cons a as ih =>
    intro j h
    by_cases hc : a.1 = c
    · simp [findColAux, hc] at h
      simp only [List.length_cons]
      omega
    · simp [findColAux, hc] at h
      obtain ⟨k, hk, rfl⟩ := h
      have := ih hk
      simp only [List.length_cons]
      omega

theorem foldl_max_le_acc : ∀ (l : List Nat) (acc : Nat), acc ≤ l.foldl max acc := by
  intro l
  induction l with
  | nil => intro acc; exact Nat.le_refl acc
  | cons b bs ih =>
    intro acc
    simp only [List.foldl_cons]
    exact Nat.le_trans (Nat.le_max_left acc b) (ih (max acc b))

theorem foldl_max_le_of_mem :
    ∀ (l : List Nat) (acc x : Nat), x ∈ l → x ≤ l.foldl max acc := by
  intro l
  induction l with
  | nil => intro acc x hx; simp at hx
  | cons b bs ih =>
    intro acc x hx
    simp only [List.foldl_cons]
    rcases List.mem_cons.mp hx with rfl | hx
    · exact Nat.le_trans (Nat.le_max_right acc x) (foldl_max_le_acc bs (max acc x))
    · exact ih (max acc b) x hx

theorem foldl_max_mem :
    ∀ (l : List Nat) (acc : Nat), l.foldl max acc = acc ∨ l.foldl max acc ∈ l := by
  intro l
  induction l with
  | nil => intro acc; left; rfl
  | cons b bs ih =>
    intro acc
    simp only [List.foldl_cons]
    rcases ih (max acc b) with h | h
    · rcases Nat.le_total acc b with hab | hba
      · right
        rw [h, Nat.max_eq_right hab]
        exact List.mem_cons_self b bs
      · left
        rw [h, Nat.max_eq_left hba]
    · right
      exact List.mem_cons_of_mem b h

theorem countV_pos_of_mem {vs : List Value} {v : Value} (h : v ∈ vs) : 0 < countV vs v := by
  have hmem : v ∈ vs.filter (fun w => decide (w = v)) :=
    List.mem_filter.mpr ⟨h, by simp⟩
  exact List.length_pos.mpr (List.ne_nil_of_mem hmem)

theorem foldl_min_mem (le : α → α → Bool) :
    ∀ (l : List α) (a : α),
      l.foldl (fun acc v => if le v acc then v else acc) a = a ∨
      l.foldl (fun acc v => if le v acc then v else acc) a ∈ l := by
  intro l
  induction l with
  | nil => intro a; left; rfl
  | cons b bs ih =>
    intro a
    simp only [List.foldl_cons]
    rcases ih (if le b a then b else a) with h | h
    · by_cases hb : le b a = true
      · right; rw [h, if_pos hb]; exact List.mem_cons_self b bs
      · left; rw [h, if_neg hb]
    · right; exact List.mem_cons_of_mem b h

theorem foldl_min_le (le : α → α → Bool)
    (htot : ∀ a b, le a b = true ∨ le b a = true)
    (htrans : ∀ a b c, le a b = true → le b c = true → le a c = true) :
    ∀ (l : List α) (a x : α), (x = a ∨ x ∈ l) →
      le (l.foldl (fun acc v => if le v acc then v else acc) a) x = true := by
  intro l
  induction l with
  | nil =>
    intro a x hx
    rcases hx with rfl | hx
    · rcases htot x x with h | h <;> exact h
    · simp at hx
  | cons b bs ih =>
    intro a x hx
    simp only [List.foldl_cons]
    have ha2a : le (if le b a then b else a) a = true := by
      by_cases h : le b a = true
      · rw [if_pos h]; exact h
      · rw [if_neg h]
        rcases htot a a with h2 | h2 <;> exact h2
    have ha2b : le (if le b a then b else a) b = true := by
      by_cases h : le b a = true
      · rw [if_pos h]
        rcases htot b b with h2 | h2 <;> exact h2
      · rw [if_neg h]
        rcases htot a b with h2 | h2
        · exact h2
        · exact absurd h2 h
    have hres : le (bs.foldl (fun acc v => if le v acc then v else acc) (if le b a then b else a))
        (if le b a then b else a) = true := ih (if le b a then b else a) _ (Or.inl rfl)
    rcases hx with rfl | hx
    · exact htrans _ _ _ hres ha2a
    · rcases List.mem_cons.mp hx with rfl | hx
      · exact htrans _ _ _ hres ha2b
      · exact ih (if le b a then b else a) x (Or.inr hx)

theorem minWith_mem {le : α → α → Bool} {l : List α} {m : α}
    (h : minWith le l = some m) : m ∈ l := by
  cases l with
  | nil => simp [minWith] at h
  | cons a as =>
    simp only [minWith, Option.some.injEq] at h
    rcases foldl_min_mem le as a with h2 | h2
    · rw [h] at h2; rw [h2]; exact List.mem_cons_self a as
    · rw [h] at h2; exact List.mem_cons_of_mem a h2

theorem minWith_le {le : α → α → Bool}
    (htot : ∀ a b, le a b = true ∨ le b a = true)
    (htrans : ∀ a b c, le a b = true → le b c = true → le a c = true)
    {l : List α} {m : α} (h : minWith le l = some m) :
    ∀ x ∈ l, le m x = true := by
  intro x hx
  cases l with
  | nil => simp at hx
  | cons a as =>
    simp only [minWith, Option.some.injEq] at h
    rw [← h]
    exact foldl_min_le le htot htrans as a x (List.mem_cons.mp hx)

theorem strLeAux_total : ∀ (as bs : List Char),
    strLeAux as bs = true ∨ strLeAux bs as = true := by
  intro as
  induction as with
  | nil => intro bs; left; rfl
  | cons a as ih =>
    intro bs
    cases bs with
    | nil => right; rfl
    | cons b bs =>
      by_cases hab : a.toNat < b.toNat
      · left; simp [strLeAux, hab]
      · by_cases hba : b.toNat < a.toNat
        · right; simp [strLeAux, hba]
        · rcases ih bs with h | h
          · left; simp [strLeAux, hab, hba, h]
          · right; simp [strLeAux, hab, hba, h]

theorem strLeAux_trans : ∀ (as bs cs : List Char),
    strLeAux as bs = true → strLeAux bs cs = true → strLeAux as cs = true := by
  intro as
  induction as with
  | nil => intro bs cs _ _; rfl
  | cons a as ih =>
    intro bs cs h1 h2
    cases bs with
    | nil => simp [strLeAux] at h1
    | cons b bs =>
      cases cs with
      | nil => simp [strLeAux] at h2
      | cons c cs =>
        by_cases hab : a.toNat < b.toNat <;> by_cases hbc : b.toNat < c.toNat
        · simp [strLeAux]; omega
        · by_cases hcb : c.toNat < b.toNat
          · simp [strLeAux, hbc, hcb] at h2
          · have hbceq : b.toNat = c.toNat := by omega
            simp [strLeAux]; omega
        · by_cases hba : b.toNat < a.toNat
          · simp [strLeAux, hab, hba] at h1
          · have habeq : a.toNat = b.toNat := by omega
            simp [strLeAux]; omega
        · by_cases hba : b.toNat < a.toNat
          · simp [strLeAux, hab, hba] at h1
          · by_cases hcb : c.toNat < b.toNat
            · simp [strLeAux, hbc, hcb] at h2
            · have habeq : a.toNat = b.toNat := by omega
              have hbceq : b.toNat = c.toNat := by omega
              have hac : ¬ a.toNat < c.toNat := by omega
              have hca : ¬ c.toNat < a.toNat := by omega
              simp [strLeAux, hab, hba, habeq] at h1
              simp [strLeAux, hbc, hcb] at h2
              simp [strLeAux, hac, hca]
              exact ih bs cs h1 h2

theorem valueLe_total : ∀ (a b : Value), valueLe a b = true ∨ valueLe b a = true := by
  intro a b
  cases a with
  | num qa =>
    cases b with
    | num qb =>
      rcases le_total qa qb with h | h
      · left; simp [valueLe, h]
      · right; simp [valueLe, h]
    | str _ => left; rfl
  | str sa =>
    cases b with
    | num _ => right; rfl
    | str sb => exact strLeAux_total sa.data sb.data

theorem valueLe_trans : ∀ (a b c : Value),
    valueLe a b = true → valueLe b c = true → valueLe a c = true := by
  intro a b c h1 h2
  cases a with
  | num qa =>
    cases c with
    | str _ => rfl
    | num qc =>
      cases b with
      | str _ => simp [valueLe] at h2
      | num qb =>
        simp only [valueLe, decide_eq_true_eq] at h1 h2 ⊢
        exact le_trans h1 h2
  | str sa =>
    cases b with
    | num _ => simp [valueLe] at h1
    | str sb =>
      cases c with
      | num _ => simp [valueLe] at h2
      | str sc => exact strLeAux_trans sa.data sb.data sc.data h1 h2

theorem modeFirst_spec {vs : List Value} (h : vs ≠ []) :
    ∃ v, modeFirst vs = some v ∧ v ∈ vs ∧
      (∀ w ∈ vs, countV vs w ≤ countV vs v) ∧
      (∀ w ∈ vs, countV vs w = countV vs v → valueLe v w = true) := by
  obtain ⟨w0, hw0, hcw0⟩ :
      ∃ w ∈ vs, countV vs w = maxNat (vs.map (countV vs)) := by
    rcases foldl_max_mem (vs.map (countV vs)) 0 with h0 | hmem
    · obtain ⟨v0, hv0⟩ := List.exists_mem_of_ne_nil vs h
      have hpos := countV_pos_of_mem hv0
      have hle := foldl_max_le_of_mem (vs.map (countV vs)) 0 (countV vs v0)
        (List.mem_map_of_mem (countV vs) hv0)
      exfalso
      omega
    · obtain ⟨w, hw, hcw⟩ := List.mem_map.mp hmem
      exact ⟨w, hw, hcw⟩
  have hwcand : w0 ∈ vs.filter
      (fun v => decide (countV vs v = maxNat (vs.map (countV vs)))) :=
    List.mem_filter.mpr ⟨hw0, by simp [hcw0]⟩
  obtain ⟨m, hm⟩ : ∃ m, minWith valueLe
      (vs.filter (fun v => decide (countV vs v = maxNat (vs.map (countV vs))))) = some m := by
    cases hfc : vs.filter (fun v => decide (countV vs v = maxNat (vs.map (countV vs)))) with
    | nil => rw [hfc] at hwcand; simp at hwcand
    | cons a l => exact ⟨_, rfl⟩
  have hmode : modeFirst vs = some m := by
    cases vs with
    | nil => exact absurd rfl h
    | cons a l => exact hm
  have hmmem := minWith_mem hm
  have hmvs : m ∈ vs := (List.mem_filter.mp hmmem).1
  have hmcount : countV vs m = maxNat (vs.map (countV vs)) := by
    have := (List.mem_filter.mp hmmem).2
    simpa using this
  refine ⟨m, hmode, hmvs, ?_, ?_⟩
  · intro w hw
    have := foldl_max_le_of_mem (vs.map (countV vs)) 0 (countV vs w)
      (List.mem_map_of_mem (countV vs) hw)
    have h2 := hmcount
    unfold maxNat at h2
    omega
  · intro w hw hweq
    have hwcand2 : w ∈ vs.filter
        (fun v => decide (countV vs v = maxNat (vs.map (countV vs)))) :=
      List.mem_filter.mpr ⟨hw, by simp [hweq, hmcount]⟩
    exact minWith_le valueLe_total valueLe_trans hm w hwcand2

theorem getD_set_self {α : Type} (l : List α) (j : Nat) (x d : α) (h : j < l.length) :
    (l.set j x).getD j d = x := by
  rw [List.getD_eq_getElem?_getD, List.getElem?_set_self (by simpa using h)]
  rfl

theorem getD_map_of_lt {α β : Type} (l : List α) (f : α → β) (i : Nat)
    (h : i < l.length) (d : α) (d2 : β) :
    (l.map f).getD i d2 = f (l.getD i d) := by
  rw [List.getD_eq_getElem?_getD, List.getD_eq_getElem?_getD, List.getElem?_map,
    List.getElem?_eq_getElem h]
  rfl

theorem getD_eq_default_of_le {α : Type} (l : List α) (i : Nat) (d : α)
    (h : l.length ≤ i) : l.getD i d = d := by
  rw [List.getD_eq_getElem?_getD, List.getElem?_eq_none h]
  rfl

theorem fillCol_header (t : Table) (j : Nat) (v : Cell) :
    (fillCol t j v).header = t.header := rfl

theorem fillCol_rows_length (t : Table) (j : Nat) (v : Cell) :
    (fillCol t j v).rows.length = t.rows.length := by
  simp [fillCol]

theorem colCells_length (t : Table) (j : Nat) :
    (colCells t j).length = t.rows.length := by
  simp [colCells]

theorem colCells_fillCol (t : Table) (j : Nat) (v : Cell) (hwf : WF t)
    (hj : j < t.header.length) :
    colCells (fillCol t j v) j = (colCells t j).map (fillCell v) := by
  unfold colCells fillCol
  simp only [List.map_map]
  apply List.map_congr_left
  intro r hr
  have hlen : j < r.length := by
    rw [hwf r hr]; exact hj
  simp only [Function.comp]
  rw [getD_set_self r j _ none hlen]

theorem fillCol_filledColSpec (t : Table) (j : Nat) (fv : Value) (hwf : WF t)
    (hj : j < t.header.length) :
    filledColSpec t (fillCol t j (some fv)) j fv := by
  have hcc := colCells_fillCol t j (some fv) hwf hj
  refine ⟨rfl, fillCol_rows_length t j (some fv), ?_, ?_, ?_⟩
  · intro i v hv
    have hi : i < (colCells t j).length := by
      by_contra hge
      rw [getD_eq_default_of_le (colCells t j) i none (by omega)] at hv
      exact Option.noConfusion hv
    rw [hcc, getD_map_of_lt (colCells t j) (fillCell (some fv)) i hi none none, hv]
    rfl
  · intro i hi hv
    have hi2 : i < (colCells t j).length := by
      rw [colCells_length]; exact hi
    rw [hcc, getD_map_of_lt (colCells t j) (fillCell (some fv)) i hi2 none none, hv]
    rfl
  · rw [hcc]
    have : ((colCells t j).map (fillCell (some fv))).filter
        (fun cl => decide (cl = none)) = [] := by
      rw [List.filter_eq_nil_iff]
      intro x hx
      obtain ⟨y, _, rfl⟩ := List.mem_map.mp hx
      cases y <;> simp [fillCell]
    rw [this]
    rfl

theorem dedupAux_eq_keepFirstAux {α : Type} [DecidableEq α] :
    ∀ (l seen pre : List α), (∀ x, x ∈ seen ↔ x ∈ pre) →
      dedupAux seen l = keepFirstAux pre l := by
  intro l
  induction l with
  | nil => intro seen pre _; rfl
  | cons r rs ih =>
    intro seen pre hinv
    have hstep : ∀ x, x ∈ seen ∨ x = r ↔ x ∈ pre ++ [r] := by
      intro x
      rw [List.mem_append, List.mem_singleton]
      constructor
      · rintro (hx | rfl)
        · exact Or.inl ((hinv x).mp hx)
        · exact Or.inr rfl
      · rintro (hx | rfl)
        · exact Or.inl ((hinv x).mpr hx)
        · exact Or.inr rfl
    by_cases hr : r ∈ seen
    · have hr2 : r ∈ pre := (hinv r).mp hr
      rw [dedupAux, keepFirstAux, if_pos hr, if_pos hr2]
      apply ih
      intro x
      constructor
      · intro hx
        exact (hstep x).mp (Or.inl hx)
      · intro hx
        rcases List.mem_append.mp hx with hx | hx
        · exact (hinv x).mpr hx
        · rw [List.mem_singleton.mp hx]; exact hr
    · have hr2 : r ∉ pre := fun hc => hr ((hinv r).mpr hc)
      rw [dedupAux, keepFirstAux, if_neg hr, if_neg hr2]
      congr 1
      apply ih
      intro x
      rw [List.mem_cons]
      constructor
      · rintro (rfl | hx)
        · exact (hstep x).mp (Or.inr rfl)
        · exact (hstep x).mp (Or.inl hx)
      · intro hx
        rcases List.mem_append.mp hx with hx | hx
        · exact Or.inr ((hinv x).mpr hx)
        · exact Or.inl (List.mem_singleton.mp hx)

theorem applyCleaning_colIdx_none {t : Table} {c : String} (m : FillMethod)
    (h : colIdx t c = none) :
    applyCleaning t c m = Except.error CleanError.keyError := by
  unfold applyCleaning
  rw [h]

theorem applyCleaning_dropRows {t : Table} {c : String} {j : Nat}
    (h : colIdx t c = some j) :
    applyCleaning t c FillMethod.dropRows =
      Except.ok { t with rows := t.rows.filter (fun r => (r.getD j none).isSome) } := by
  unfold applyCleaning
  rw [h]

theorem applyCleaning_mean {t : Table} {c : String} {j : Nat}
    (h : colIdx t c = some j) (hdt : dtypeAt t j = ColType.numeric) :
    applyCleaning t c FillMethod.mean =
      Except.ok (fillCol t j ((meanOpt (numVals (colCells t j))).map Value.num)) := by
  unfold applyCleaning
  rw [h]
  simp [hdt]

theorem applyCleaning_median {t : Table} {c : String} {j : Nat}
    (h : colIdx t c = some j) (hdt : dtypeAt t j = ColType.numeric) :
    applyCleaning t c FillMethod.median =
      Except.ok (fillCol t j ((medianOpt (numVals (colCells t j))).map Value.num)) := by
  unfold applyCleaning
  rw [h]
  simp [hdt]

theorem applyCleaning_mode {t : Table} {c : String} {j : Nat}
    (h : colIdx t c = some j) :
    applyCleaning t c FillMethod.mode =
      (match modeFirst (nonNull (colCells t j)) with
       | none => Except.error CleanError.indexError
       | some v => Except.ok (fillCol t j (some v))) := by
  unfold applyCleaning
  rw [h]
  by_cases hdt : dtypeAt t j = ColType.numeric
  · simp [hdt]
  · simp [hdt]

theorem applyCleaning_cat {t : Table} {c : String} {j : Nat} {m : FillMethod}
    (h : colIdx t c = some j) (hdt : dtypeAt t j = ColType.categorical)
    (hm : m ≠ FillMethod.dropRows) :
    applyCleaning t c m =
      (match modeFirst (nonNull (colCells t j)) with
       | none => Except.error CleanError.indexError
       | some v => Except.ok (fillCol t j (some v))) := by
  have hdt2 : ¬ dtypeAt t j = ColType.numeric := by
    rw [hdt]; intro hc; exact ColType.noConfusion hc
  unfold applyCleaning
  rw [h]
  cases m with
  | dropRows => exact absurd rfl hm
  | mean => simp [hdt2]
  | median => simp [hdt2]
  | mode => simp [hdt2]

theorem dedupAux_length_le {α : Type} [DecidableEq α] :
    ∀ (l seen : List α), (dedupAux seen l).length ≤ l.length := by
  intro l
  induction l with
  | nil => intro seen; exact Nat.le_refl 0
  | cons r rs ih =>
    intro seen
    rw [dedupAux]
    by_cases hr : r ∈ seen
    · rw [if_pos hr]
      exact Nat.le_trans (ih seen) (Nat.le_succ rs.length)
    · rw [if_neg hr]
      simp only [List.length_cons]
      exact Nat.succ_le_succ (ih (r :: seen))

/-! Claim theorems. -/

/-- C1, counterexample: on the numeric column [2, 1, 2, 1, null] the values
1 and 2 are tied as most frequent and 2 is encountered first, yet the Mode
imputation fills the null with 1 (pandas returns the modes sorted
ascending and the code takes element 0), so the fill value is NOT the
first-encountered tied value. -/
theorem claim1_mode_tiebreak_counterexample :
    firstEncounteredMode (nonNull (colCells exTieT 0)) = some (Value.num 2) ∧
    applyCleaning exTieT "c" FillMethod.mode =
      Except.ok { header := [("c", ColType.numeric)]
                , rows := [[some (Value.num 2)], [some (Value.num 1)], [some (Value.num 2)],
                           [some (Value.num 1)], [some (Value.num 1)]] } ∧
    (Value.num 1 : Value) ≠ Value.num 2 := by
  refine ⟨by decide, by decide, by decide⟩

/-- C1 (amended): for every Mode imputation on a column with at least one
non-null value, the fill value used is a most frequent value of the
non-null entries of the column, and when several values are tied for most
frequent the LEAST such value (in the ascending order pandas sorts modes
by) is chosen, not the first-encountered one; the spec example
[x, y, x, y] still yields x, since x is both first and least. -/
theorem claim1_mode_tiebreak (t : Table) (c : String) (j : Nat)
    (hj : colIdx t c = some j) (hwf : WF t)
    (hne : nonNull (colCells t j) ≠ []) :
    ∃ v, modeFirst (nonNull (colCells t j)) = some v ∧
      v ∈ nonNull (colCells t j) ∧
      (∀ w ∈ nonNull (colCells t j),
        countV (nonNull (colCells t j)) w ≤ countV (nonNull (colCells t j)) v) ∧
      (∀ w ∈ nonNull (colCells t j),
        countV (nonNull (colCells t j)) w = countV (nonNull (colCells t j)) v →
          valueLe v w = true) ∧
      applyCleaning t c FillMethod.mode = Except.ok (fillCol t j (some v)) ∧
      filledColSpec t (fillCol t j (some v)) j v := by
  obtain ⟨v, hmo, hmem, hmax, htie⟩ := modeFirst_spec hne
  refine ⟨v, hmo, hmem, hmax, htie, ?_, ?_⟩
  · rw [applyCleaning_mode hj, hmo]
  · exact fillCol_filledColSpec t j v hwf (findColAux_lt_length hj)

/-- C1, witness at the spec example column [x, y, x, y] with a null. -/
theorem claim1_mode_tiebreak_witness :
    ∃ v, modeFirst (nonNull (colCells exXYT 0)) = some v ∧
      v ∈ nonNull (colCells exXYT 0) ∧
      (∀ w ∈ nonNull (colCells exXYT 0),
        countV (nonNull (colCells exXYT 0)) w ≤ countV (nonNull (colCells exXYT 0)) v) ∧
      (∀ w ∈ nonNull (colCells exXYT 0),
        countV (nonNull (colCells exXYT 0)) w = countV (nonNull (colCells exXYT 0)) v →
          valueLe v w = true) ∧
      applyCleaning exXYT "c" FillMethod.mode = Except.ok (fillCol exXYT 0 (some v)) ∧
      filledColSpec exXYT (fillCol exXYT 0 (some v)) 0 v :=
  claim1_mode_tiebreak exXYT "c" 0 (by decide) (by decide) (by decide)

/-- C2, counterexample: Drop Rows is a strategy the user can request on a
categorical column, and on the column [a, null] it removes the null row
instead of filling it with the mode a; so not EVERY requested strategy on a
categorical column mode-fills. -/
theorem claim2_cat_fill_mode_counterexample :
    applyCleaning exCatT "c" FillMethod.dropRows =
      Except.ok { header := [("c", ColType.categorical)], rows := [[some (Value.str "a")]] } ∧
    modeFirst (nonNull (colCells exCatT 0)) = some (Value.str "a") ∧
    ({ header := [("c", ColType.categorical)], rows := [[some (Value.str "a")]] } : Table) ≠
      fillCol exCatT 0 (some (Value.str "a")) := by
  refine ⟨by decide, by decide, by decide⟩

/-- C2 (amended): for every FILL strategy (Mean, Median or Mode — anything
but Drop Rows) applied to a categorical column with at least one non-null
value, the applied operation fills the null cells of the column with the
mode of the column (element 0 of the pandas mode series), regardless of
which fill strategy was requested. -/
theorem claim2_cat_fill_mode (t : Table) (c : String) (j : Nat) (m : FillMethod)
    (hj : colIdx t c = some j) (hwf : WF t)
    (hcat : dtypeAt t j = ColType.categorical) (hm : m ≠ FillMethod.dropRows)
    (hne : nonNull (colCells t j) ≠ []) :
    ∃ v, modeFirst (nonNull (colCells t j)) = some v ∧
      applyCleaning t c m = Except.ok (fillCol t j (some v)) ∧
      filledColSpec t (fillCol t j (some v)) j v := by
  obtain ⟨v, hmo, _, _, _⟩ := modeFirst_spec hne
  refine ⟨v, hmo, ?_, fillCol_filledColSpec t j v hwf (findColAux_lt_length hj)⟩
  rw [applyCleaning_cat hj hcat hm, hmo]

/-- C2, witness: Mean requested on the categorical column [p, p, null, q]
still mode-fills. -/
theorem claim2_cat_fill_mode_witness :
    ∃ v, modeFirst (nonNull (colCells exCityT 0)) = some v ∧
      applyCleaning exCityT "city" FillMethod.mean = Except.ok (fillCol exCityT 0 (some v)) ∧
      filledColSpec exCityT (fillCol exCityT 0 (some v)) 0 v :=
  claim2_cat_fill_mode exCityT "city" 0 FillMethod.mean (by decide) (by decide) (by decide)
    (by decide) (by decide)

/-- C3, counterexample: on a numeric column that is entirely null, the mean
of the non-null values does not exist (pandas yields NaN and the fillna is
a no-op), so after the Mean action the column still has one null, not
zero. -/
theorem claim3_mean_fill_counterexample :
    applyCleaning exAllNullT "c" FillMethod.mean = Except.ok exAllNullT ∧
    ((colCells exAllNullT 0).filter (fun cl => decide (cl = none))).length = 1 := by
  refine ⟨by decide, by decide⟩

/-- C3 (amended): for every table and numeric column with AT LEAST ONE
non-null value, applying Mean yields a table in which the column has zero
nulls, every previously non-null cell is unchanged, and every previously
null cell holds the arithmetic mean (sum divided by count) of the
pre-existing non-null values. -/
theorem claim3_mean_fill (t : Table) (c : String) (j : Nat)
    (hj : colIdx t c = some j) (hwf : WF t)
    (hnum : dtypeAt t j = ColType.numeric)
    (_hty : ∀ cl ∈ colCells t j, isNumCell cl = true)
    (hne : numVals (colCells t j) ≠ []) :
    ∃ mu, meanOpt (numVals (colCells t j)) = some mu ∧
      mu = (numVals (colCells t j)).sum / ((numVals (colCells t j)).length : ℚ) ∧
      applyCleaning t c FillMethod.mean = Except.ok (fillCol t j (some (Value.num mu))) ∧
      filledColSpec t (fillCol t j (some (Value.num mu))) j (Value.num mu) := by
  have hmu : meanOpt (numVals (colCells t j)) =
      some ((numVals (colCells t j)).sum / ((numVals (colCells t j)).length : ℚ)) := by
    cases hnv : numVals (colCells t j) with
    | nil => exact absurd hnv hne
    | cons a l => rfl
  refine ⟨_, hmu, rfl, ?_, ?_⟩
  · rw [applyCleaning_mean hj hnum, hmu]
    rfl
  · exact fillCol_filledColSpec t j _ hwf (findColAux_lt_length hj)

/-- C3, witness at the spec example age = [20, 30, null, 40]. -/
theorem claim3_mean_fill_witness :
    ∃ mu, meanOpt (numVals (colCells exAgeT 0)) = some mu ∧
      mu = (numVals (colCells exAgeT 0)).sum / ((numVals (colCells exAgeT 0)).length : ℚ) ∧
      applyCleaning exAgeT "age" FillMethod.mean =
        Except.ok (fillCol exAgeT 0 (some (Value.num mu))) ∧
      filledColSpec exAgeT (fillCol exAgeT 0 (some (Value.num mu))) 0 (Value.num mu) :=
  claim3_mean_fill exAgeT "age" 0 (by decide) (by decide) (by decide) (by decide) (by decide)

/-- C4: DropDuplicates removes exactly the rows equal (across all columns)
to some earlier row, keeping the first occurrence of each distinct row;
the accumulator-style recursion of the code equals the earlier-rows
formulation of the claim, and the spec example (1,a), (1,a), (2,b)
reduces to (1,a), (2,b). -/
theorem claim4_drop_duplicates :
    (∀ t : Table, dropDuplicatesT t =
      { header := t.header, rows := keepFirstOccurrences t.rows }) ∧
    dropDuplicatesT exDupT = exDedupT := by
  constructor
  · intro t
    unfold dropDuplicatesT keepFirstOccurrences
    congr 1
    exact dedupAux_eq_keepFirstAux t.rows [] [] (fun x => Iff.rfl)
  · decide

/-- C5, counterexample: on the filename data.txt (a suffix that is neither
.csv nor .xls/.xlsx) `load_data` falls through and silently returns None —
no table, but also NO reason message — whereas the claim requires a
LoadError carrying a reason for any other suffix. -/
theorem claim5_load_dispatch_counterexample :
    load_data "data.txt" (Except.ok emptyT) (Except.ok emptyT) = LoadResult.fail none ∧
    LoadResult.hasReason (load_data "data.txt" (Except.ok emptyT) (Except.ok emptyT)) = false ∧
    LoadResult.isParsed (load_data "data.txt" (Except.ok emptyT) (Except.ok emptyT)) = false := by
  refine ⟨by decide, by decide, by decide⟩

/-- C5 (amended): `load_data` returns the parsed table exactly when the
filename ends in .csv and the CSV parse succeeds, or ends in .xls/.xlsx
(and not .csv) and the spreadsheet parse succeeds; a parse failure yields a
failure carrying a reason message; any other suffix yields a silent
failure with NO reason. -/
theorem claim5_load_dispatch (name : String) (csv xls : Except String Table) :
    ((∃ tb, load_data name csv xls = LoadResult.ok tb) ↔
      ((strEndsWith name ".csv" = true ∧ ∃ tb, csv = Except.ok tb) ∨
       (strEndsWith name ".csv" = false ∧
        (strEndsWith name ".xls" = true ∨ strEndsWith name ".xlsx" = true) ∧
        ∃ tb, xls = Except.ok tb))) ∧
    (strEndsWith name ".csv" = false → strEndsWith name ".xls" = false →
      strEndsWith name ".xlsx" = false →
      load_data name csv xls = LoadResult.fail none) ∧
    (∀ e, strEndsWith name ".csv" = true → csv = Except.error e →
      load_data name csv xls = LoadResult.fail (some ("Error reading file: " ++ e))) ∧
    (∀ e, strEndsWith name ".csv" = false →
      (strEndsWith name ".xls" = true ∨ strEndsWith name ".xlsx" = true) →
      xls = Except.error e →
      load_data name csv xls = LoadResult.fail (some ("Error reading file: " ++ e))) := by
  by_cases h1 : strEndsWith name ".csv" = true <;>
    by_cases h2 : strEndsWith name ".xls" = true <;>
      by_cases h3 : strEndsWith name ".xlsx" = true <;>
        cases csv <;> cases xls <;>
          simp [load_data, h1, h2, h3, Bool.not_eq_true] at *

/-- C5, witness: a .csv name with a successful parse loads the table, and a
.xlsx name with a failing parse reports a reason. -/
theorem claim5_load_dispatch_witness :
    (∃ tb, load_data "a.csv" (Except.ok emptyT) (Except.ok emptyT) = LoadResult.ok tb) ∧
    load_data "b.xlsx" (Except.ok emptyT) (Except.error "boom") =
      LoadResult.fail (some ("Error reading file: " ++ "boom")) :=
  ⟨(claim5_load_dispatch "a.csv" (Except.ok emptyT) (Except.ok emptyT)).1.mpr
      (Or.inl ⟨by decide, emptyT, rfl⟩),
    (claim5_load_dispatch "b.xlsx" (Except.ok emptyT) (Except.error "boom")).2.2.2 "boom"
      (by decide) (Or.inr (by decide)) rfl⟩

/-- C6: a plot kind whose required column type has zero candidate columns
is rejected with a visualization error: with no numeric columns Histogram,
ScatterPlot and BoxPlot all fail, with no categorical columns BarChart
fails, and BarChart succeeds whenever at least one categorical column
exists. -/
theorem claim6_render_eligibility (t : Table) :
    (numericCols t = [] →
      render t PlotKind.histogram = Except.error VisError.noEligibleColumns ∧
      render t PlotKind.scatterPlot = Except.error VisError.noEligibleColumns ∧
      render t PlotKind.boxPlot = Except.error VisError.noEligibleColumns) ∧
    (categoricalCols t = [] →
      render t PlotKind.barChart = Except.error VisError.noEligibleColumns) ∧
    (categoricalCols t ≠ [] → ∃ ch, render t PlotKind.barChart = Except.ok ch) := by
  refine ⟨?_, ?_, ?_⟩
  · intro h
    refine ⟨?_, ?_, ?_⟩ <;> simp [render, h]
  · intro h
    simp [render, h]
  · intro h
    cases hc : categoricalCols t with
    | nil => exact absurd hc h
    | cons a l => exact ⟨ChartSpec.barChart a, by simp [render, hc]⟩

/-- C6, witness at a table with one categorical and no numeric column. -/
theorem claim6_render_eligibility_witness :
    render exCatT PlotKind.histogram = Except.error VisError.noEligibleColumns ∧
    render exCatT PlotKind.scatterPlot = Except.error VisError.noEligibleColumns ∧
    render exCatT PlotKind.boxPlot = Except.error VisError.noEligibleColumns ∧
    ∃ ch, render exCatT PlotKind.barChart = Except.ok ch := by
  have h := claim6_render_eligibility exCatT
  obtain ⟨h1, h2, h3⟩ := (h.1 (by decide))
  exact ⟨h1, h2, h3, h.2.2 (by decide)⟩

/-- C7: a cleaning action naming a column absent from the table aborts with
an error (the pandas KeyError, surfaced as a visible message) before any
mutation: no new table is produced, so the prior table state stays in
place.  The other failure source of the claim — a strategy with no defined
behaviour for the dtype of the column — does not exist in this code: each
of the four strategies is defined for both dtypes. -/
theorem claim7_missing_column (t : Table) (c : String) (m : FillMethod)
    (h : colIdx t c = none) :
    applyCleaning t c m = Except.error CleanError.keyError ∧
    ∀ t2, applyCleaning t c m ≠ Except.ok t2 := by
  have he := applyCleaning_colIdx_none m h
  refine ⟨he, ?_⟩
  intro t2 hc
  rw [he] at hc
  exact Except.noConfusion hc

/-- C7, witness: asking to clean column zip, absent from the age table. -/
theorem claim7_missing_column_witness :
    applyCleaning exAgeT "zip" FillMethod.mean = Except.error CleanError.keyError ∧
    ∀ t2, applyCleaning exAgeT "zip" FillMethod.mean ≠ Except.ok t2 :=
  claim7_missing_column exAgeT "zip" FillMethod.mean (by decide)

/-- C8: the Summarizer is a pure function of the table, so two calls on an
unmutated table yield identical overviews (shape, preview, per-column
non-null counts and dtypes, and the numeric descriptive-statistics
table). -/
theorem claim8_summarize_idempotent (t : Table) : summarize t = summarize t := rfl

/-- C9: Drop Rows on any column — numeric or categorical alike, the dtype
branch is never consulted — keeps exactly the rows whose cell in that
column is non-null, unchanged and in order, and performs no mode-fill. -/
theorem claim9_dropRows (t : Table) (c : String) (j : Nat)
    (hj : colIdx t c = some j) :
    ∃ t2, applyCleaning t c FillMethod.dropRows = Except.ok t2 ∧
      t2.header = t.header ∧
      t2.rows = t.rows.filter (fun r => (r.getD j none).isSome) ∧
      List.Sublist t2.rows t.rows ∧
      (∀ r ∈ t2.rows, (r.getD j none).isSome = true) ∧
      (∀ r ∈ t.rows, (r.getD j none).isSome = true → r ∈ t2.rows) := by
  refine ⟨_, applyCleaning_dropRows hj, rfl, rfl, List.filter_sublist t.rows, ?_, ?_⟩
  · intro r hr
    exact (List.mem_filter.mp hr).2
  · intro r hr hsome
    exact List.mem_filter.mpr ⟨hr, hsome⟩

/-- C9, witness: Drop Rows on the categorical column [a, null]. -/
theorem claim9_dropRows_witness :
    ∃ t2, applyCleaning exCatT "c" FillMethod.dropRows = Except.ok t2 ∧
      t2.header = exCatT.header ∧
      t2.rows = exCatT.rows.filter (fun r => (r.getD 0 none).isSome) ∧
      List.Sublist t2.rows exCatT.rows ∧
      (∀ r ∈ t2.rows, (r.getD 0 none).isSome = true) ∧
      (∀ r ∈ exCatT.rows, (r.getD 0 none).isSome = true → r ∈ t2.rows) :=
  claim9_dropRows exCatT "c" 0 (by decide)

/-- C10: every cleaning action that succeeds preserves the header (names,
order and dtypes of the columns) and never increases the row count, and
duplicate removal does the same. -/
theorem claim10_cleaning_invariants :
    (∀ (t : Table) (c : String) (m : FillMethod) (t2 : Table),
      applyCleaning t c m = Except.ok t2 →
        t2.header = t.header ∧ t2.rows.length ≤ t.rows.length) ∧
    (∀ t : Table, (dropDuplicatesT t).header = t.header ∧
      (dropDuplicatesT t).rows.length ≤ t.rows.length) := by
  constructor
  · intro t c m t2 h
    cases hcol : colIdx t c with
    | none =>
      rw [applyCleaning_colIdx_none m hcol] at h
      exact Except.noConfusion h
    | some j =>
      have hfill : ∀ (v : Cell),
          (fillCol t j v).header = t.header ∧
          (fillCol t j v).rows.length ≤ t.rows.length :=
        fun v => ⟨rfl, le_of_eq (fillCol_rows_length t j v)⟩
      have hmodecase : applyCleaning t c m =
            (match modeFirst (nonNull (colCells t j)) with
             | none => Except.error CleanError.indexError
             | some v => Except.ok (fillCol t j (some v))) →
          t2.header = t.header ∧ t2.rows.length ≤ t.rows.length := by
        intro heq
        rw [heq] at h
        cases hmo : modeFirst (nonNull (colCells t j)) with
        | none => rw [hmo] at h; exact Except.noConfusion h
        | some v =>
          rw [hmo] at h
          injection h with h2
          rw [← h2]
          exact hfill (some v)
      cases m with
      | dropRows =>
        rw [applyCleaning_dropRows hcol] at h
        injection h with h2
        rw [← h2]
        exact ⟨rfl, List.length_filter_le _ t.rows⟩
      | mean =>
        cases hdt : dtypeAt t j with
        | numeric =>
          rw [applyCleaning_mean hcol hdt] at h
          injection h with h2
          rw [← h2]
          exact hfill _
        | categorical =>
          exact hmodecase (applyCleaning_cat hcol hdt (by decide))
      | median =>
        cases hdt : dtypeAt t j with
        | numeric =>
          rw [applyCleaning_median hcol hdt] at h
          injection h with h2
          rw [← h2]
          exact hfill _
        | categorical =>
          exact hmodecase (applyCleaning_cat hcol hdt (by decide))
      | mode =>
        exact hmodecase (applyCleaning_mode hcol)
  · intro t
    exact ⟨rfl, dedupAux_length_le t.rows []⟩

/-- C10, witness: the Mode fill on the tied numeric column keeps the header
and the row count. -/
theorem claim10_cleaning_invariants_witness :
    ({ header := [("c", ColType.numeric)]
     , rows := [[some (Value.num 2)], [some (Value.num 1)], [some (Value.num 2)],
                [some (Value.num 1)], [some (Value.num 1)]] } : Table).header =
      exTieT.header ∧
    ({ header := [("c", ColType.numeric)]
     , rows := [[some (Value.num 2)], [some (Value.num 1)], [some (Value.num 2)],
                [some (Value.num 1)], [some (Value.num 1)]] } : Table).rows.length ≤
      exTieT.rows.length :=
  claim10_cleaning_invariants.1 exTieT "c" FillMethod.mode _ (by decide)

end DataTool
